import Mathlib

set_option maxRecDepth 400000

/-!
Verification development for the CSRF token issuance/verification core and the
client-side rate limiter of the loan-application repository.

The server core lives in `src/server/index.js`:
  * `CSRF_SECRET` startup handling (lines 12-21),
  * `verifyCsrfToken` (lines 42-69),
  * `issueCsrfToken` (lines 71-77).
The client rate limiter is `rateLimit.check` in `src/assets/js/email-config.js`
(lines 113-130).

The embedding is executable and faithful to the JavaScript/Node semantics the
code relies on:
  * SHA-256 and HMAC-SHA256 are implemented concretely over `Nat` bytes/words
    (with explicit `% 2^32` masking), modelling Node's
    `crypto.createHmac("sha256", secret).update(payload).digest("hex")`;
  * `Buffer.from(s, "hex")` is modelled with Node's truncating hex decoder
    (decoding stops at the first invalid hex pair, a trailing lone digit is
    dropped);
  * `crypto.timingSafeEqual` throws on buffers of unequal byte length; the
    verifier therefore returns an explicit `throws` outcome in that case;
  * JavaScript `Number(string)` coercion is modelled by `jsToNumber`
    (whitespace trimming, signs, `Infinity`, decimal/fraction/exponent, and
    the `0x`/`0o`/`0b` radix prefixes), with finite values represented as
    exact rationals (an idealization of IEEE doubles: no rounding, which is
    exact for the integral millisecond timestamps the scheme uses);
  * JavaScript string truthiness, the `||` candidate-selection chain and
    UTF-16 `.length` are modelled explicitly.

Time (`Date.now()`) and randomness (`crypto.randomBytes(16)`) are passed as
explicit parameters.
-/

/-! ## Bytes, 32-bit words and SHA-256 (FIPS 180-4), over `Nat` -/

/-- Truncate to a 32-bit word. -/
def w32 (n : Nat) : Nat := n % 4294967296

/-- Right rotation of a 32-bit word. -/
def rotr32 (k x : Nat) : Nat := w32 ((x >>> k) ||| (x <<< (32 - k)))

def shaCh (x y z : Nat) : Nat := (x &&& y) ^^^ ((x ^^^ 4294967295) &&& z)

def shaMaj (x y z : Nat) : Nat := (x &&& y) ^^^ (x &&& z) ^^^ (y &&& z)

def shaBig0 (x : Nat) : Nat := rotr32 2 x ^^^ rotr32 13 x ^^^ rotr32 22 x

def shaBig1 (x : Nat) : Nat := rotr32 6 x ^^^ rotr32 11 x ^^^ rotr32 25 x

def shaSmall0 (x : Nat) : Nat := rotr32 7 x ^^^ rotr32 18 x ^^^ (x >>> 3)

def shaSmall1 (x : Nat) : Nat := rotr32 17 x ^^^ rotr32 19 x ^^^ (x >>> 10)

/-- The 64 SHA-256 round constants. -/
def shaK : List Nat :=
  [1116352408, 1899447441, 3049323471, 3921009573, 961987163,
   1508970993, 2453635748, 2870763221, 3624381080, 310598401,
   607225278, 1426881987, 1925078388, 2162078206, 2614888103,
   3248222580, 3835390401, 4022224774, 264347078, 604807628,
   770255983, 1249150122, 1555081692, 1996064986, 2554220882,
   2821834349, 2952996808, 3210313671, 3336571891, 3584528711,
   113926993, 338241895, 666307205, 773529912, 1294757372,
   1396182291, 1695183700, 1986661051, 2177026350, 2456956037,
   2730485921, 2820302411, 3259730800, 3345764771, 3516065817,
   3600352804, 4094571909, 275423344, 430227734, 506948616,
   659060556, 883997877, 958139571, 1322822218, 1537002063,
   1747873779, 1955562222, 2024104815, 2227730452, 2361852424,
   2428436474, 2756734187, 3204031479, 3329325298]

/-- The SHA-256 initial hash value. -/
def shaH0 : List Nat :=
  [1779033703, 3144134277, 1013904242, 2773480762,
   1359893119, 2600822924, 528734635, 1541459225]

/-- Message-schedule extension; `acc` holds the words produced so far, most
recent first. -/
def shaScheduleAux : Nat → List Nat → List Nat
  | 0, acc => acc.reverse
  | n + 1, acc =>
      shaScheduleAux n
        (w32 (shaSmall1 (acc.getD 1 0) + acc.getD 6 0 +
              shaSmall0 (acc.getD 14 0) + acc.getD 15 0) :: acc)

/-- Expand a 16-word block to the 64-word message schedule. -/
def shaSchedule (block : List Nat) : List Nat := shaScheduleAux 48 block.reverse

/-- One round of the SHA-256 compression function on the 8-word state. -/
def shaCompress1 (st : List Nat) (wk : Nat × Nat) : List Nat :=
  let a := st.getD 0 0
  let b := st.getD 1 0
  let c := st.getD 2 0
  let d := st.getD 3 0
  let e := st.getD 4 0
  let f := st.getD 5 0
  let g := st.getD 6 0
  let h := st.getD 7 0
  let t1 := w32 (h + shaBig1 e + shaCh e f g + wk.2 + wk.1)
  let t2 := w32 (shaBig0 a + shaMaj a b c)
  [w32 (t1 + t2), a, b, c, w32 (d + t1), e, f, g]

/-- Process one 16-word block, updating the 8-word hash state. -/
def shaProcessBlock (hs : List Nat) (block : List Nat) : List Nat :=
  let ws := shaSchedule block
  let st := (ws.zip shaK).foldl shaCompress1 hs
  (List.range 8).map (fun i => w32 (hs.getD i 0 + st.getD i 0))

/-- Big-endian rendering of `w` on `k` bytes. -/
def toBEBytes (k w : Nat) : List Nat :=
  (List.range k).map (fun i => (w >>> (8 * (k - 1 - i))) % 256)

/-- SHA-256 padding: `0x80`, zeros to 56 mod 64, then the 64-bit bit length. -/
def shaPad (msg : List Nat) : List Nat :=
  msg ++ 128 :: (List.replicate ((119 - msg.length % 64) % 64) 0 ++
    toBEBytes 8 (8 * msg.length))

/-- Group bytes into big-endian 32-bit words. -/
def bytesToWords : List Nat → List Nat
  | b0 :: b1 :: b2 :: b3 :: rest =>
      (((b0 * 256 + b1) * 256 + b2) * 256 + b3) :: bytesToWords rest
  | _ => []

/-- Group a word list into 16-word blocks. -/
def group16 : List Nat → List (List Nat)
  | w0 :: w1 :: w2 :: w3 :: w4 :: w5 :: w6 :: w7 ::
    w8 :: w9 :: w10 :: w11 :: w12 :: w13 :: w14 :: w15 :: rest =>
      [w0, w1, w2, w3, w4, w5, w6, w7,
       w8, w9, w10, w11, w12, w13, w14, w15] :: group16 rest
  | _ => []

/-- SHA-256 digest as 8 words. -/
def sha256Words (msg : List Nat) : List Nat :=
  (group16 (bytesToWords (shaPad msg))).foldl shaProcessBlock shaH0

/-- Concatenation-map over lists (self-contained `flatMap`). -/
def flatMapL : List α → (α → List β) → List β
  | [], _ => []
  | a :: l, f => f a ++ flatMapL l f

/-- SHA-256 digest as 32 bytes. -/
def sha256 (msg : List Nat) : List Nat := flatMapL (sha256Words msg) (toBEBytes 4)

/-- HMAC-SHA256 (RFC 2104) with a 64-byte block size, digest as 32 bytes. -/
def hmacSha256 (key msg : List Nat) : List Nat :=
  let k0 := if 64 < key.length then sha256 key else key
  let kp := k0 ++ List.replicate (64 - k0.length) 0
  sha256 ((kp.map (fun b => b ^^^ 92)) ++
    sha256 ((kp.map (fun b => b ^^^ 54)) ++ msg))

/-! ## Hex encoding and UTF-8 bytes of strings -/

/-- Lowercase hex digit for a nibble, as produced by Node's
`Buffer.toString("hex")` and by decimal digit rendering for values below 10. -/
def hexDigitChar (d : Nat) : Char :=
  if d < 10 then Char.ofNat (48 + d)
  else if d < 16 then Char.ofNat (87 + d)
  else 'f'

/-- Lowercase hex rendering of a byte list, as a char list. -/
def bytesToHexChars (bs : List Nat) : List Char :=
  flatMapL bs (fun b => [hexDigitChar (b / 16), hexDigitChar (b % 16)])

/-- Lowercase hex rendering of a byte list (Node `buf.toString("hex")`). -/
def bytesToHex (bs : List Nat) : String := String.mk (bytesToHexChars bs)

/-- UTF-8 encoding of one scalar value (Node encodes strings as UTF-8 when
hashing). -/
def charUtf8 (c : Char) : List Nat :=
  let n := c.toNat
  if n < 128 then [n]
  else if n < 2048 then [192 ||| (n >>> 6), 128 ||| (n &&& 63)]
  else if n < 65536 then
    [224 ||| (n >>> 12), 128 ||| ((n >>> 6) &&& 63), 128 ||| (n &&& 63)]
  else
    [240 ||| (n >>> 18), 128 ||| ((n >>> 12) &&& 63),
     128 ||| ((n >>> 6) &&& 63), 128 ||| (n &&& 63)]

/-- UTF-8 bytes of a string. -/
def strToBytes (s : String) : List Nat := flatMapL s.data charUtf8

/-- The model of
`crypto.createHmac("sha256", secret).update(payload).digest("hex")`. -/
def hmacSha256Hex (secret payload : String) : String :=
  bytesToHex (hmacSha256 (strToBytes secret) (strToBytes payload))

/-- FIPS 180-4 known-answer test: SHA-256 of "abc". -/
theorem sha256_abc_kat :
    bytesToHex (sha256 (strToBytes "abc")) =
      "ba7816bf8f01cfea414140de5dae2223b00361a396177a9cb410ff61f20015ad" := by
  decide

/-- RFC 4231-style known-answer test for HMAC-SHA256. -/
theorem hmacSha256_kat :
    bytesToHex (hmacSha256 (strToBytes "key")
        (strToBytes "The quick brown fox jumps over the lazy dog")) =
      "f7bc83f430538424b13298e6aa6fb143ef4d59a14946175997479dbc2d1a3cd8" := by
  decide

/-! ## JavaScript value model: truthiness, `||`, UTF-16 length, `Number()` -/

/-- A JavaScript value as it can appear as a request header or a parsed JSON
body field; `undefined` is modelled as `Option.none` at use sites. -/
inductive JsValue
  | str (s : String)
  | num (q : ℚ)
  | bool (b : Bool)
  | null
  | obj
  | arr
deriving DecidableEq

/-- JavaScript truthiness of a possibly-absent value (`undefined` = `none`). -/
def truthy : Option JsValue → Bool
  | none => false
  | some (.str s) => s != ""
  | some (.num q) => q != 0
  | some (.bool b) => b
  | some .null => false
  | some .obj => true
  | some .arr => true

/-- JavaScript `a || b`: `a` when truthy, else `b`. -/
def jsOr (a b : Option JsValue) : Option JsValue := if truthy a then a else b

/-- The candidate-token selection
`req.headers["x-csrf-token"] || req.body?._token || req.body?.csrfToken`
(src/server/index.js lines 43-46). -/
def selectToken (header bodyToken bodyCsrf : Option JsValue) : Option JsValue :=
  jsOr header (jsOr bodyToken bodyCsrf)

/-- JavaScript `String.prototype.length`: UTF-16 code units, so astral scalar
values count twice. -/
def jsStrLen (l : List Char) : Nat :=
  (l.map (fun c => if 65536 ≤ c.toNat then 2 else 1)).sum

/-- JavaScript whitespace (WhiteSpace ∪ LineTerminator), trimmed by
`Number(string)`. -/
def jsWsChar (c : Char) : Bool :=
  let n := c.toNat
  n == 9 || n == 10 || n == 11 || n == 12 || n == 13 || n == 32 || n == 160 ||
  n == 5760 || (8192 ≤ n && n ≤ 8202) || n == 8232 || n == 8233 || n == 8239 ||
  n == 8287 || n == 12288 || n == 65279

/-- Trim JavaScript whitespace from both ends. -/
def jsTrim (l : List Char) : List Char :=
  ((l.dropWhile jsWsChar).reverse.dropWhile jsWsChar).reverse

def isDigitCh (c : Char) : Bool := 48 ≤ c.toNat && c.toNat ≤ 57

def allDigits (l : List Char) : Bool := l.all isDigitCh

/-- Value of a big-endian decimal digit string. -/
def natOfDigits (l : List Char) : Nat :=
  l.foldl (fun a c => 10 * a + (c.toNat - 48)) 0

/-- Hex digit value, either case (Node's `unhex`). -/
def unhexChar (c : Char) : Option Nat :=
  let n := c.toNat
  if 48 ≤ n && n ≤ 57 then some (n - 48)
  else if 97 ≤ n && n ≤ 102 then some (n - 87)
  else if 65 ≤ n && n ≤ 70 then some (n - 55)
  else none

/-- Node `Buffer.from(s, "hex")`: decode hex pairs, stopping at the first
pair containing an invalid digit; a trailing lone digit is dropped. -/
def bufferFromHex : List Char → List Nat
  | c1 :: c2 :: rest =>
      match unhexChar c1, unhexChar c2 with
      | some hi, some lo => (16 * hi + lo) :: bufferFromHex rest
      | _, _ => []
  | _ => []

/-- The result of JavaScript `Number(string)`: NaN, a signed infinity, or a
finite value (modelled as an exact rational). -/
inductive JsNum
  | nan
  | posInf
  | negInf
  | fin (q : ℚ)
deriving DecidableEq

def jsNeg : JsNum → JsNum
  | .nan => .nan
  | .posInf => .negInf
  | .negInf => .posInf
  | .fin q => .fin (-q)

/-- `Number.isNaN`. -/
def jsIsNaN : JsNum → Bool
  | .nan => true
  | _ => false

/-- Mantissa of a decimal literal: `digits`, `digits.digits`, `digits.` or
`.digits`. -/
def parseMantissa (l : List Char) : Option ℚ :=
  let ip := l.takeWhile isDigitCh
  match l.dropWhile isDigitCh with
  | [] => if ip.isEmpty then none else some (natOfDigits ip : ℚ)
  | '.' :: fp =>
      if allDigits fp && (!ip.isEmpty || !fp.isEmpty) then
        some ((natOfDigits ip : ℚ) + (natOfDigits fp : ℚ) / (10 : ℚ) ^ fp.length)
      else none
  | _ => none

/-- Exponent part after the `e`: optionally signed digits. -/
def parseExpPart (l : List Char) : Option Int :=
  match l with
  | '+' :: ds => if allDigits ds && !ds.isEmpty then some (natOfDigits ds : Int) else none
  | '-' :: ds => if allDigits ds && !ds.isEmpty then some (-(natOfDigits ds : Int)) else none
  | ds => if allDigits ds && !ds.isEmpty then some (natOfDigits ds : Int) else none

/-- An unsigned decimal numeric literal, with optional fraction and
exponent. -/
def parseDecLit (l : List Char) : Option ℚ :=
  let m := l.takeWhile (fun c => isDigitCh c || c == '.')
  match l.dropWhile (fun c => isDigitCh c || c == '.') with
  | [] => parseMantissa m
  | e :: ex =>
      if e == 'e' || e == 'E' then
        match parseMantissa m, parseExpPart ex with
        | some mv, some ev => some (mv * (10 : ℚ) ^ ev)
        | _, _ => none
      else none

/-- One digit in a power-of-two radix literal. -/
def digitInBase (base : Nat) (c : Char) : Option Nat :=
  match unhexChar c with
  | some d => if d < base then some d else none
  | none => none

/-- Digits of a `0x`/`0o`/`0b` literal (must be non-empty and all valid). -/
def parseRadixDigits (base : Nat) (l : List Char) : Option Nat :=
  if l.isEmpty then none
  else
    l.foldl (fun acc c =>
      match acc, digitInBase base c with
      | some a, some d => some (base * a + d)
      | _, _ => none) (some 0)

def infinityChars : List Char := ['I', 'n', 'f', 'i', 'n', 'i', 't', 'y']

/-- Numeric part after an optional sign: `Infinity` or a decimal literal
(radix prefixes are not allowed after a sign in JavaScript). -/
def jsUnsignedNum (l : List Char) : JsNum :=
  if l = infinityChars then .posInf
  else
    match parseDecLit l with
    | some q => .fin q
    | none => .nan

/-- JavaScript `Number(string)` (the `StringNumericLiteral` grammar):
whitespace trimming, empty ↦ 0, optional sign with `Infinity` or a decimal
literal, unsigned `0x`/`0o`/`0b` radix literals, anything else ↦ NaN. -/
def jsToNumber (s : String) : JsNum :=
  let l := jsTrim s.data
  if l = [] then .fin 0
  else if l.head? = some '+' then jsUnsignedNum l.tail
  else if l.head? = some '-' then jsNeg (jsUnsignedNum l.tail)
  else if l.head? = some '0' ∧ (l.tail.head? = some 'x' ∨ l.tail.head? = some 'X') then
    match parseRadixDigits 16 l.tail.tail with
    | some n => .fin n
    | none => .nan
  else if l.head? = some '0' ∧ (l.tail.head? = some 'o' ∨ l.tail.head? = some 'O') then
    match parseRadixDigits 8 l.tail.tail with
    | some n => .fin n
    | none => .nan
  else if l.head? = some '0' ∧ (l.tail.head? = some 'b' ∨ l.tail.head? = some 'B') then
    match parseRadixDigits 2 l.tail.tail with
    | some n => .fin n
    | none => .nan
  else jsUnsignedNum l

/-- JavaScript `Date.now() > e` with `now` the integral current time and `e`
the parsed expiry; any comparison with NaN is false. -/
def jsNowGt (now : Int) : JsNum → Bool
  | .nan => false
  | .posInf => false
  | .negInf => true
  | .fin q => decide ((now : ℚ) > q)

/-- Decimal digits of `n`, big-endian, by fuelled division (`n ≤ fuel`). -/
def natDecChars : Nat → Nat → List Char
  | 0, _ => []
  | _ + 1, 0 => []
  | fuel + 1, n => natDecChars fuel (n / 10) ++ [hexDigitChar (n % 10)]

/-- JavaScript number-to-string for integral values: plain decimal notation
(exact for `|n| < 10^21`; beyond that JS switches to exponent notation, far
outside the millisecond timestamps used here). -/
def jsIntToString (n : Int) : String :=
  if n < 0 then String.mk ('-' :: natDecChars n.natAbs n.natAbs)
  else if n = 0 then "0"
  else String.mk (natDecChars n.toNat n.toNat)

/-- JavaScript `s.split(sep)` for a single-character separator. -/
def splitChar (sep : Char) : List Char → List (List Char)
  | [] => [[]]
  | c :: rest =>
      let r := splitChar sep rest
      if c = sep then [] :: r
      else
        match r with
        | h :: t => (c :: h) :: t
        | [] => [[c]]

/-! ## The embedded server and client operations -/

/-- Observable outcome of the `verifyCsrfToken` middleware: fall through to
the protected handler (`next()`), an HTTP error response, or a thrown
exception (`crypto.timingSafeEqual` on buffers of unequal length). -/
inductive Outcome
  | next
  | reject (status : Nat) (error : String)
  | throws
deriving DecidableEq

/-- The uniform denial response, `res.status(403).json({ error: "Invalid or
missing CSRF token" })`, used identically at every rejection site of
`verifyCsrfToken`. -/
def reject403 : Outcome := .reject 403 "Invalid or missing CSRF token"

/-- Body of `verifyCsrfToken` for a non-empty string candidate
(src/server/index.js lines 52-68): split on `:`, destructure the first three
fields, recompute the HMAC, compare string lengths, hex-decode both sides for
`crypto.timingSafeEqual` (which throws when the decoded byte lengths differ),
then check `Number(expiryStr)` for NaN and expiry. -/
def verifyTokenStr (secret : String) (now : Int) (s : String) : Outcome :=
  let parts := splitChar ':' s.data
  let nonce := parts.getD 0 []
  let expiryStr := parts.getD 1 []
  let signature := parts.getD 2 []
  if nonce = [] ∨ expiryStr = [] ∨ signature = [] then
    reject403
  else
    let payload := String.mk nonce ++ ":" ++ String.mk expiryStr
    let expectedSignature := hmacSha256Hex secret payload
    if jsStrLen signature ≠ jsStrLen expectedSignature.data then
      reject403
    else if (bufferFromHex signature).length ≠ (bufferFromHex expectedSignature.data).length then
      .throws
    else if bufferFromHex signature ≠ bufferFromHex expectedSignature.data then
      reject403
    else
      let expiry := jsToNumber (String.mk expiryStr)
      if jsIsNaN expiry then reject403
      else if jsNowGt now expiry then reject403
      else .next

/-- The `verifyCsrfToken` middleware (src/server/index.js lines 42-69):
candidate selection via `||`, the `!token || typeof token !== "string"`
guard, then the string verification body. -/
def verifyCsrfToken (secret : String) (now : Int)
    (header bodyToken bodyCsrf : Option JsValue) : Outcome :=
  match selectToken header bodyToken bodyCsrf with
  | some (.str s) =>
      if s = "" then reject403
      else verifyTokenStr secret now s
  | _ => reject403

/-- `issueCsrfToken` (src/server/index.js lines 71-77); `Date.now()` and the
16 bytes of `crypto.randomBytes(16)` are explicit parameters. -/
def issueCsrfToken (secret : String) (now : Int) (rand : List Nat) : String :=
  let nonce := bytesToHex rand
  let expiresAt := now + 1800000
  let payload := nonce ++ ":" ++ jsIntToString expiresAt
  payload ++ ":" ++ hmacSha256Hex secret payload

/-- Startup secret handling (src/server/index.js lines 12-21). `envCsrf` and
`envNodeEnv` model `process.env.CSRF_SECRET` and `process.env.NODE_ENV`;
`randHex` models `crypto.randomBytes(32).toString("hex")`. Returns the
process secret together with whether the ephemeral-secret warning was
emitted, or the thrown startup error. -/
def startupSecret (envCsrf envNodeEnv : Option String) (randHex : String) :
    Except String (String × Bool) :=
  let isProduction := envNodeEnv = some "production"
  let secret :=
    match envCsrf with
    | some s => if s = "" then randHex else s
    | none => randHex
  if envCsrf = none ∨ envCsrf = some "" then
    if isProduction then
      .error "CSRF_SECRET is not set; using ephemeral secret (development only)."
    else .ok (secret, true)
  else .ok (secret, false)

/-- The client rate limiter counter (`rateLimit` in
src/assets/js/email-config.js lines 113-115; fresh state is
`attempts = 0, lastAttempt = 0`). -/
structure RateState where
  attempts : Nat
  lastAttempt : Int
deriving DecidableEq

/-- `rateLimit.check()` (src/assets/js/email-config.js lines 116-129) with
`Date.now()` explicit: reset when more than 60000 ms have passed since
`lastAttempt`, reject at 5 attempts, otherwise increment and stamp. Returns
the boolean result and the updated counter. -/
def rateLimitCheck (s : RateState) (now : Int) : Bool × RateState :=
  let s1 := if now - s.lastAttempt > 60000 then RateState.mk 0 now else s
  if s1.attempts ≥ 5 then (false, s1)
  else (true, RateState.mk (s1.attempts + 1) now)

/-- Run `rateLimit.check()` at each listed time in order, collecting the
results and the final counter. -/
def rateLimitRun (s : RateState) : List Int → List Bool × RateState
  | [] => ([], s)
  | t :: ts =>
      let r := rateLimitCheck s t
      let rest := rateLimitRun r.2 ts
      (r.1 :: rest.1, rest.2)

/-- Modelled from the spec: the `windowStart` counter of §3 ("Rate Limit
Counter ... attributes `attempts: integer`, `windowStart: timestamp`"),
where `windowStart` is the start of the current window, restarted only when
the window elapses. -/
structure RateSpecState where
  attempts : Nat
  windowStart : Int
deriving DecidableEq

/-- Modelled from the spec: one `check` under the claimed `windowStart`
semantics — "`attempts` resets to 0 whenever the elapsed time since
`windowStart` exceeds the configured window". -/
def rateSpecCheck (s : RateSpecState) (now : Int) : Bool × RateSpecState :=
  let s1 := if now - s.windowStart > 60000 then RateSpecState.mk 0 now else s
  if s1.attempts ≥ 5 then (false, s1)
  else (true, RateSpecState.mk (s1.attempts + 1) s1.windowStart)

/-- Modelled from the spec: iterated `windowStart`-semantics checks. -/
def rateSpecRun (s : RateSpecState) : List Int → List Bool × RateSpecState
  | [] => ([], s)
  | t :: ts =>
      let r := rateSpecCheck s t
      let rest := rateSpecRun r.2 ts
      (r.1 :: rest.1, rest.2)

/-- Modelled from the spec: candidate selection where the first PRESENT
source wins ("first present wins", even for an empty-string header) — the
claimed semantics, to be compared against `selectToken`. -/
def selectTokenFirstPresent (header bodyToken bodyCsrf : Option JsValue) :
    Option JsValue :=
  match header with
  | some v => some v
  | none =>
      match bodyToken with
      | some v => some v
      | none => bodyCsrf


/-! ## Structural lemmas: splitting, hex, digest shape -/

theorem strMk_data : ∀ s : String, String.mk s.data = s
  | ⟨_⟩ => rfl

theorem splitChar_of_not_mem {sep : Char} :
    ∀ {l : List Char}, sep ∉ l → splitChar sep l = [l]
  | [], _ => rfl
  | c :: rest, h => by
      have hc : ¬c = sep := fun e => h (e ▸ List.mem_cons_self c rest)
      have hr : splitChar sep rest = [rest] :=
        splitChar_of_not_mem fun m => h (List.mem_cons_of_mem c m)
      simp [splitChar, hr, hc]

theorem splitChar_append {sep : Char} :
    ∀ {a : List Char} (b : List Char), sep ∉ a →
      splitChar sep (a ++ sep :: b) = a :: splitChar sep b
  | [], b, _ => by simp [splitChar]
  | c :: a, b, h => by
      have hc : ¬c = sep := fun e => h (e ▸ List.mem_cons_self c a)
      have hr : splitChar sep (a ++ sep :: b) = a :: splitChar sep b :=
        splitChar_append b fun m => h (List.mem_cons_of_mem c m)
      have hcons : splitChar sep (c :: (a ++ sep :: b)) =
          match splitChar sep (a ++ sep :: b) with
          | hh :: t => (c :: hh) :: t
          | [] => [[c]] := by simp [splitChar, hc]
      rw [List.cons_append, hcons, hr]

theorem splitChar_three {a b c : List Char} (ha : ':' ∉ a) (hb : ':' ∉ b)
    (hc : ':' ∉ c) : splitChar ':' (a ++ ':' :: (b ++ ':' :: c)) = [a, b, c] := by
  rw [splitChar_append _ ha, splitChar_append _ hb, splitChar_of_not_mem hc]

theorem flatMapL_length {l : List α} {f : α → List β} {k : Nat}
    (h : ∀ a ∈ l, (f a).length = k) : (flatMapL l f).length = k * l.length := by
  induction l with
  | nil => simp [flatMapL]
  | cons a l ih =>
      have ha := h a (List.mem_cons_self a l)
      have ih2 := ih fun x hx => h x (List.mem_cons_of_mem a hx)
      simp [flatMapL, ha, ih2, Nat.mul_succ, Nat.add_comm]

theorem mem_flatMapL {b : β} {l : List α} {f : α → List β} :
    b ∈ flatMapL l f ↔ ∃ a ∈ l, b ∈ f a := by
  induction l with
  | nil => simp [flatMapL]
  | cons a l ih => simp [flatMapL, ih]

theorem toBEBytes_length (k w : Nat) : (toBEBytes k w).length = k := by
  simp [toBEBytes]

theorem toBEBytes_lt (k w : Nat) : ∀ b ∈ toBEBytes k w, b < 256 := by
  intro b hb
  simp only [toBEBytes, List.mem_map] at hb
  obtain ⟨i, _, rfl⟩ := hb
  exact Nat.mod_lt _ (by norm_num)

theorem shaProcessBlock_length (hs block : List Nat) :
    (shaProcessBlock hs block).length = 8 := by
  simp [shaProcessBlock]

theorem foldl_shaProcessBlock_length :
    ∀ (bs : List (List Nat)) (hs : List Nat),
      (bs.foldl shaProcessBlock hs).length = 8 ∨ bs = []
  | [], _ => Or.inr rfl
  | b :: bs, hs => by
      rcases foldl_shaProcessBlock_length bs (shaProcessBlock hs b) with h | h
      · exact Or.inl (by simpa using h)
      · subst h
        exact Or.inl (by simpa using shaProcessBlock_length hs b)

theorem sha256Words_length (msg : List Nat) : (sha256Words msg).length = 8 := by
  rcases foldl_shaProcessBlock_length (group16 (bytesToWords (shaPad msg))) shaH0 with h | h
  · exact h
  · rw [sha256Words, h]; rfl

theorem sha256_length (msg : List Nat) : (sha256 msg).length = 32 := by
  have h : (flatMapL (sha256Words msg) (toBEBytes 4)).length =
      4 * (sha256Words msg).length :=
    flatMapL_length fun a _ => toBEBytes_length 4 a
  rw [sha256, h, sha256Words_length]

theorem sha256_lt (msg : List Nat) : ∀ b ∈ sha256 msg, b < 256 := by
  intro b hb
  rw [sha256, mem_flatMapL] at hb
  obtain ⟨w, _, hbw⟩ := hb
  exact toBEBytes_lt 4 w b hbw

theorem hmacSha256_length (key msg : List Nat) :
    (hmacSha256 key msg).length = 32 := sha256_length _

theorem hmacSha256_lt (key msg : List Nat) :
    ∀ b ∈ hmacSha256 key msg, b < 256 := sha256_lt _

theorem unhexChar_hexDigitChar {d : Nat} (h : d < 16) :
    unhexChar (hexDigitChar d) = some d := by
  interval_cases d <;> rfl

/-- A character of `/^[0-9a-f]$/`: a lowercase hex digit. -/
def isLowerHexCh (c : Char) : Bool :=
  (48 ≤ c.toNat && c.toNat ≤ 57) || (97 ≤ c.toNat && c.toNat ≤ 102)

theorem hexDigitChar_of_ge {d : Nat} (h : 16 ≤ d) : hexDigitChar d = 'f' := by
  unfold hexDigitChar
  rw [if_neg (by omega), if_neg (by omega)]

theorem isLowerHexCh_hexDigitChar (d : Nat) : isLowerHexCh (hexDigitChar d) = true := by
  rcases Nat.lt_or_ge d 16 with h | h
  · interval_cases d <;> decide
  · rw [hexDigitChar_of_ge h]; decide

theorem hexDigitChar_toNat_lt (d : Nat) : (hexDigitChar d).toNat < 128 := by
  rcases Nat.lt_or_ge d 16 with h | h
  · interval_cases d <;> decide
  · rw [hexDigitChar_of_ge h]; decide

theorem hexDigitChar_ne_colon (d : Nat) : ¬hexDigitChar d = ':' := by
  rcases Nat.lt_or_ge d 16 with h | h
  · interval_cases d <;> decide
  · rw [hexDigitChar_of_ge h]; decide

theorem bytesToHexChars_length (bs : List Nat) :
    (bytesToHexChars bs).length = 2 * bs.length :=
  flatMapL_length fun _ _ => rfl

theorem mem_bytesToHexChars {c : Char} {bs : List Nat} (h : c ∈ bytesToHexChars bs) :
    ∃ d, c = hexDigitChar d := by
  rw [bytesToHexChars, mem_flatMapL] at h
  obtain ⟨b, _, hc⟩ := h
  simp only [List.mem_cons, List.not_mem_nil, or_false] at hc
  rcases hc with hc | hc
  · exact ⟨b / 16, hc⟩
  · exact ⟨b % 16, hc⟩

theorem colon_not_mem_bytesToHexChars (bs : List Nat) : ':' ∉ bytesToHexChars bs := by
  intro h
  obtain ⟨d, hd⟩ := mem_bytesToHexChars h
  exact hexDigitChar_ne_colon d hd.symm

theorem bufferFromHex_bytesToHexChars :
    ∀ {bs : List Nat}, (∀ b ∈ bs, b < 256) → bufferFromHex (bytesToHexChars bs) = bs
  | [], _ => rfl
  | b :: bs, h => by
      have hb := h b (List.mem_cons_self b bs)
      have h1 : b / 16 < 16 := by omega
      have h2 : b % 16 < 16 := by omega
      have ih : bufferFromHex (bytesToHexChars bs) = bs :=
        bufferFromHex_bytesToHexChars fun x hx => h x (List.mem_cons_of_mem b hx)
      have hshape : bytesToHexChars (b :: bs) =
          hexDigitChar (b / 16) :: hexDigitChar (b % 16) :: bytesToHexChars bs := rfl
      rw [hshape, bufferFromHex, unhexChar_hexDigitChar h1, unhexChar_hexDigitChar h2]
      simp [ih]
      omega

theorem jsStrLen_cons (c : Char) (l : List Char) :
    jsStrLen (c :: l) = (if 65536 ≤ c.toNat then 2 else 1) + jsStrLen l := by
  simp [jsStrLen]

theorem jsStrLen_of_bmp {l : List Char} (h : ∀ c ∈ l, c.toNat < 65536) :
    jsStrLen l = l.length := by
  induction l with
  | nil => rfl
  | cons c l ih =>
      have hc : ¬65536 ≤ c.toNat := by
        have := h c (List.mem_cons_self c l)
        omega
      have ih2 := ih fun x hx => h x (List.mem_cons_of_mem c hx)
      rw [jsStrLen_cons, if_neg hc, ih2, List.length_cons]
      omega

theorem jsStrLen_bytesToHexChars (bs : List Nat) :
    jsStrLen (bytesToHexChars bs) = 2 * bs.length := by
  rw [jsStrLen_of_bmp, bytesToHexChars_length]
  intro c hc
  obtain ⟨d, rfl⟩ := mem_bytesToHexChars hc
  have := hexDigitChar_toNat_lt d
  omega

/-! ## Decimal rendering and `Number()` parsing lemmas -/

theorem natDecChars_zero : ∀ fuel, natDecChars fuel 0 = []
  | 0 => rfl
  | _ + 1 => rfl

theorem isDigitCh_hexDigitChar {d : Nat} (h : d < 10) :
    isDigitCh (hexDigitChar d) = true := by
  interval_cases d <;> decide

theorem hexDigitChar_toNat_digit {d : Nat} (h : d < 10) :
    (hexDigitChar d).toNat = 48 + d := by
  interval_cases d <;> decide

theorem natOfDigits_append_one (l : List Char) (c : Char) :
    natOfDigits (l ++ [c]) = 10 * natOfDigits l + (c.toNat - 48) := by
  simp [natOfDigits, List.foldl_append]

theorem natDecChars_spec : ∀ (fuel n : Nat), 0 < n → n ≤ fuel →
    natDecChars fuel n ≠ [] ∧ (∀ c ∈ natDecChars fuel n, isDigitCh c = true) ∧
      natOfDigits (natDecChars fuel n) = n
  | 0, _, hn, hf => absurd hf (by omega)
  | fuel + 1, n, hn, hf => by
      obtain ⟨m, rfl⟩ : ∃ m, n = m + 1 := ⟨n - 1, by omega⟩
      have heq : natDecChars (fuel + 1) (m + 1) =
          natDecChars fuel ((m + 1) / 10) ++ [hexDigitChar ((m + 1) % 10)] := rfl
      have hlt : (m + 1) % 10 < 10 := by omega
      by_cases hdiv : (m + 1) / 10 = 0
      · rw [heq, hdiv, natDecChars_zero, List.nil_append]
        refine ⟨by simp, ?_, ?_⟩
        · intro c hcm
          rw [List.mem_singleton] at hcm
          subst hcm
          exact isDigitCh_hexDigitChar hlt
        · show natOfDigits [hexDigitChar ((m + 1) % 10)] = m + 1
          simp [natOfDigits, hexDigitChar_toNat_digit hlt]
          omega
      · have hd10 : (m + 1) / 10 ≤ fuel := by omega
        obtain ⟨hne, hdig, hval⟩ :=
          natDecChars_spec fuel ((m + 1) / 10) (by omega) hd10
        refine ⟨by simp [heq], ?_, ?_⟩
        · intro c hcm
          rw [heq] at hcm
          rcases List.mem_append.mp hcm with hcm | hcm
          · exact hdig c hcm
          · rw [List.mem_singleton] at hcm
            subst hcm
            exact isDigitCh_hexDigitChar hlt
        · rw [heq, natOfDigits_append_one, hval, hexDigitChar_toNat_digit hlt]
          omega

theorem jsIntToString_pos_data {n : Int} (h : 0 < n) :
    (jsIntToString n).data = natDecChars n.toNat n.toNat := by
  unfold jsIntToString
  rw [if_neg (by omega), if_neg (by omega)]

theorem jsWsChar_of_digit {c : Char} (h : isDigitCh c = true) : jsWsChar c = false := by
  simp only [isDigitCh, Bool.and_eq_true, decide_eq_true_eq] at h
  simp only [jsWsChar, Bool.or_eq_false_iff, Bool.and_eq_false_iff,
    beq_eq_false_iff_ne, ne_eq, decide_eq_false_iff_not, not_le]
  omega

theorem dropWhile_all_false {p : α → Bool} :
    ∀ {l : List α}, (∀ c ∈ l, p c = false) → l.dropWhile p = l
  | [], _ => rfl
  | c :: l, h => by
      simp [List.dropWhile_cons, h c (List.mem_cons_self c l)]

theorem takeWhile_all_true {p : α → Bool} :
    ∀ {l : List α}, (∀ c ∈ l, p c = true) → l.takeWhile p = l
  | [], _ => rfl
  | c :: l, h => by
      simp [List.takeWhile_cons, h c (List.mem_cons_self c l)]
      exact fun x hx => h x (List.mem_cons_of_mem c hx)

theorem dropWhile_all_true {p : α → Bool} :
    ∀ {l : List α}, (∀ c ∈ l, p c = true) → l.dropWhile p = []
  | [], _ => rfl
  | c :: l, h => by
      simp [List.dropWhile_cons, h c (List.mem_cons_self c l)]
      exact fun x hx => h x (List.mem_cons_of_mem c hx)

theorem jsTrim_all_not_ws {l : List Char} (h : ∀ c ∈ l, jsWsChar c = false) :
    jsTrim l = l := by
  unfold jsTrim
  rw [dropWhile_all_false h,
    dropWhile_all_false fun c hc => h c (List.mem_reverse.mp hc),
    List.reverse_reverse]

theorem jsToNumber_digitStr {l : List Char} (hne : l ≠ [])
    (h : ∀ c ∈ l, isDigitCh c = true) :
    jsToNumber (String.mk l) = .fin (natOfDigits l) := by
  obtain ⟨c, rest, rfl⟩ : ∃ c rest, l = c :: rest := by
    cases l with
    | nil => exact absurd rfl hne
    | cons c rest => exact ⟨c, rest, rfl⟩
  have hc : 48 ≤ c.toNat ∧ c.toNat ≤ 57 := by
    simpa [isDigitCh] using h c (List.mem_cons_self c rest)
  have htail : ∀ ch : Char, 57 < ch.toNat → ¬rest.head? = some ch := by
    intro ch hch hekv
    cases rest with
    | nil => exact Option.noConfusion hekv
    | cons d r2 =>
        have hd : 48 ≤ d.toNat ∧ d.toNat ≤ 57 := by
          simpa [isDigitCh] using h d (by simp)
        rw [show (d :: r2).head? = some d from rfl] at hekv
        rw [Option.some.injEq] at hekv
        subst hekv
        omega
  have hdigall : ∀ x ∈ c :: rest, isDigitCh x = true := h
  have hdotall : ∀ x ∈ c :: rest, (isDigitCh x || x == '.') = true := by
    intro x hx
    simp [hdigall x hx]
  simp only [jsToNumber, jsTrim_all_not_ws fun x hx => jsWsChar_of_digit (h x hx)]
  rw [if_neg (by simp)]
  rw [if_neg (by
    show ¬(c :: rest).head? = some '+'
    rw [show (c :: rest).head? = some c from rfl, Option.some.injEq]
    intro hcc
    subst hcc
    revert hc
    decide)]
  rw [if_neg (by
    show ¬(c :: rest).head? = some '-'
    rw [show (c :: rest).head? = some c from rfl, Option.some.injEq]
    intro hcc
    subst hcc
    revert hc
    decide)]
  rw [if_neg (by
    rintro ⟨-, hx | hx⟩
    · exact htail 'x' (by decide) hx
    · exact htail 'X' (by decide) hx)]
  rw [if_neg (by
    rintro ⟨-, hx | hx⟩
    · exact htail 'o' (by decide) hx
    · exact htail 'O' (by decide) hx)]
  rw [if_neg (by
    rintro ⟨-, hx | hx⟩
    · exact htail 'b' (by decide) hx
    · exact htail 'B' (by decide) hx)]
  rw [jsUnsignedNum, if_neg (by
    intro heq
    rw [show infinityChars = 'I' :: ['n', 'f', 'i', 'n', 'i', 't', 'y'] from rfl,
      List.cons.injEq] at heq
    obtain ⟨hcc, -⟩ := heq
    subst hcc
    revert hc
    decide)]
  simp only [parseDecLit, takeWhile_all_true hdotall, dropWhile_all_true hdotall,
    parseMantissa, takeWhile_all_true hdigall, dropWhile_all_true hdigall]
  simp

/-! ## Shape of the recomputed signature, and the verifier on well-formed
tokens -/

theorem hmacSha256Hex_data (secret payload : String) :
    (hmacSha256Hex secret payload).data =
      bytesToHexChars (hmacSha256 (strToBytes secret) (strToBytes payload)) := rfl

theorem jsStrLen_hmacHex (secret payload : String) :
    jsStrLen (hmacSha256Hex secret payload).data = 64 := by
  rw [hmacSha256Hex_data, jsStrLen_bytesToHexChars, hmacSha256_length]

theorem bufferFromHex_hmacHex (secret payload : String) :
    bufferFromHex (hmacSha256Hex secret payload).data =
      hmacSha256 (strToBytes secret) (strToBytes payload) := by
  rw [hmacSha256Hex_data]
  exact bufferFromHex_bytesToHexChars (hmacSha256_lt _ _)

theorem length_bufferFromHex_hmacHex (secret payload : String) :
    (bufferFromHex (hmacSha256Hex secret payload).data).length = 32 := by
  rw [bufferFromHex_hmacHex, hmacSha256_length]

theorem verifyCsrfToken_header (secret : String) (now : Int) (s : String)
    (hs : ¬s = "") (bt bc : Option JsValue) :
    verifyCsrfToken secret now (some (.str s)) bt bc =
      verifyTokenStr secret now s := by
  have ht : truthy (some (JsValue.str s)) = true := by simp [truthy, hs]
  unfold verifyCsrfToken selectToken jsOr
  rw [ht]
  simp [hs]

theorem verifyTokenStr_parts {secret : String} {now : Int} {a b c : List Char}
    (hna : ¬a = []) (hnb : ¬b = []) (hnc : ¬c = [])
    (hca : ':' ∉ a) (hcb : ':' ∉ b) (hcc : ':' ∉ c) :
    verifyTokenStr secret now (String.mk (a ++ ':' :: (b ++ ':' :: c))) =
      (if jsStrLen c ≠
          jsStrLen (hmacSha256Hex secret (String.mk a ++ ":" ++ String.mk b)).data then
        reject403
      else if (bufferFromHex c).length ≠
          (bufferFromHex
            (hmacSha256Hex secret (String.mk a ++ ":" ++ String.mk b)).data).length then
        .throws
      else if ¬bufferFromHex c =
          bufferFromHex
            (hmacSha256Hex secret (String.mk a ++ ":" ++ String.mk b)).data then
        reject403
      else if jsIsNaN (jsToNumber (String.mk b)) then reject403
      else if jsNowGt now (jsToNumber (String.mk b)) then reject403
      else .next) := by
  unfold verifyTokenStr
  rw [show (String.mk (a ++ ':' :: (b ++ ':' :: c))).data =
      a ++ ':' :: (b ++ ':' :: c) from rfl]
  rw [splitChar_three hca hcb hcc]
  simp only [List.getD_cons_zero, List.getD_cons_succ]
  rw [if_neg (by simp [hna, hnb, hnc])]

theorem verifyTokenStr_accept_iff {secret : String} {now : Int} {a b c : List Char}
    (hna : ¬a = []) (hnb : ¬b = []) (hnc : ¬c = [])
    (hca : ':' ∉ a) (hcb : ':' ∉ b) (hcc : ':' ∉ c) :
    verifyTokenStr secret now (String.mk (a ++ ':' :: (b ++ ':' :: c))) = .next ↔
      (jsStrLen c = 64 ∧
       bufferFromHex c =
         hmacSha256 (strToBytes secret)
           (strToBytes (String.mk a ++ ":" ++ String.mk b)) ∧
       jsIsNaN (jsToNumber (String.mk b)) = false ∧
       jsNowGt now (jsToNumber (String.mk b)) = false) := by
  rw [verifyTokenStr_parts hna hnb hnc hca hcb hcc]
  have hlen := jsStrLen_hmacHex secret (String.mk a ++ ":" ++ String.mk b)
  have hbuf := bufferFromHex_hmacHex secret (String.mk a ++ ":" ++ String.mk b)
  have hblen := length_bufferFromHex_hmacHex secret (String.mk a ++ ":" ++ String.mk b)
  by_cases h1 : jsStrLen c = 64
  case neg =>
    rw [if_pos (by rw [hlen]; exact fun e => h1 e)]
    exact iff_of_false (by decide) fun hr => h1 hr.1
  rw [if_neg (by rw [hlen, h1]; exact not_not_intro rfl)]
  by_cases h2 : bufferFromHex c =
      hmacSha256 (strToBytes secret) (strToBytes (String.mk a ++ ":" ++ String.mk b))
  · rw [if_neg (by rw [hbuf, h2]; exact not_not_intro rfl),
      if_neg (by rw [hbuf, h2]; exact not_not_intro rfl)]
    by_cases h4 : jsIsNaN (jsToNumber (String.mk b)) = true
    · rw [if_pos h4]
      refine iff_of_false (by decide) fun hr => ?_
      rw [hr.2.2.1] at h4
      exact Bool.noConfusion h4
    · rw [if_neg h4]
      by_cases h5 : jsNowGt now (jsToNumber (String.mk b)) = true
      · rw [if_pos h5]
        refine iff_of_false (by decide) fun hr => ?_
        rw [hr.2.2.2] at h5
        exact Bool.noConfusion h5
      · rw [if_neg h5]
        refine iff_of_true rfl ⟨h1, h2, ?_, ?_⟩
        · revert h4
          cases jsIsNaN (jsToNumber (String.mk b)) <;> simp
        · revert h5
          cases jsNowGt now (jsToNumber (String.mk b)) <;> simp
  · refine iff_of_false ?_ fun hr => h2 hr.2.1
    by_cases hl : (bufferFromHex c).length =
        (bufferFromHex
          (hmacSha256Hex secret (String.mk a ++ ":" ++ String.mk b)).data).length
    · rw [if_neg (not_not_intro hl), if_pos (fun he => h2 (by rw [he, hbuf]))]
      decide
    · rw [if_pos hl]
      decide

/-! ## The issued token through the verifier -/

theorem jsToNumber_jsIntToString {n : Int} (h : 0 < n) :
    jsToNumber (jsIntToString n) = .fin (n : ℚ) := by
  obtain ⟨hne, hdig, hval⟩ := natDecChars_spec n.toNat n.toNat (by omega) le_rfl
  have hmk : String.mk (natDecChars n.toNat n.toNat) = jsIntToString n := by
    rw [← jsIntToString_pos_data h, strMk_data]
  rw [← hmk, jsToNumber_digitStr hne hdig, hval]
  congr 1
  exact_mod_cast congrArg (fun z : Int => (z : ℚ)) (Int.toNat_of_nonneg h.le)

theorem colon_not_mem_digits {l : List Char} (h : ∀ c ∈ l, isDigitCh c = true) :
    ':' ∉ l := by
  intro hm
  have := h _ hm
  revert this
  decide

theorem issueCsrfToken_data (secret : String) (t0 : Int) (rand : List Nat) :
    (issueCsrfToken secret t0 rand).data =
      (bytesToHex rand).data ++ ':' ::
        ((jsIntToString (t0 + 1800000)).data ++ ':' ::
          (hmacSha256Hex secret
            (bytesToHex rand ++ ":" ++ jsIntToString (t0 + 1800000))).data) := by
  unfold issueCsrfToken
  simp [String.data_append, List.append_assoc]

theorem verify_issue_eval (secret : String) (now t0 : Int) (rand : List Nat)
    (ht0 : 0 ≤ t0) (hlen : rand.length = 16) :
    verifyCsrfToken secret now
        (some (.str (issueCsrfToken secret t0 rand))) none none =
      if t0 + 1800000 < now then reject403 else .next := by
  have hpos : (0 : Int) < t0 + 1800000 := by omega
  obtain ⟨hbne, hbdig, hbval⟩ :=
    natDecChars_spec (t0 + 1800000).toNat (t0 + 1800000).toNat (by omega) le_rfl
  have hbdata := jsIntToString_pos_data hpos
  have hahex : (bytesToHex rand).data = bytesToHexChars rand := rfl
  have hna : ¬(bytesToHex rand).data = [] := by
    intro e
    have hl := bytesToHexChars_length rand
    rw [← hahex, e, hlen] at hl
    simp at hl
  have hnb : ¬(jsIntToString (t0 + 1800000)).data = [] := by
    rw [hbdata]; exact hbne
  have hnc : ¬(hmacSha256Hex secret
      (bytesToHex rand ++ ":" ++ jsIntToString (t0 + 1800000))).data = [] := by
    intro e
    have hl := jsStrLen_hmacHex secret
      (bytesToHex rand ++ ":" ++ jsIntToString (t0 + 1800000))
    rw [e] at hl
    simp [jsStrLen] at hl
  have hca : ':' ∉ (bytesToHex rand).data := by
    rw [hahex]; exact colon_not_mem_bytesToHexChars rand
  have hcb : ':' ∉ (jsIntToString (t0 + 1800000)).data := by
    rw [hbdata]; exact colon_not_mem_digits hbdig
  have hcc : ':' ∉ (hmacSha256Hex secret
      (bytesToHex rand ++ ":" ++ jsIntToString (t0 + 1800000))).data := by
    rw [hmacSha256Hex_data]; exact colon_not_mem_bytesToHexChars _
  have hs : ¬issueCsrfToken secret t0 rand = "" := by
    intro e
    have hd := congrArg String.data e
    rw [issueCsrfToken_data] at hd
    simp at hd
  have hres : issueCsrfToken secret t0 rand =
      String.mk ((bytesToHex rand).data ++ ':' ::
        ((jsIntToString (t0 + 1800000)).data ++ ':' ::
          (hmacSha256Hex secret
            (bytesToHex rand ++ ":" ++ jsIntToString (t0 + 1800000))).data)) := by
    conv_lhs => rw [← strMk_data (issueCsrfToken secret t0 rand)]
    rw [issueCsrfToken_data]
  rw [verifyCsrfToken_header secret now _ hs none none, hres,
    verifyTokenStr_parts hna hnb hnc hca hcb hcc,
    strMk_data (bytesToHex rand), strMk_data (jsIntToString (t0 + 1800000))]
  rw [if_neg (not_not_intro rfl), if_neg (not_not_intro rfl),
    if_neg (not_not_intro rfl), jsToNumber_jsIntToString hpos,
    if_neg (by simp [jsIsNaN])]
  by_cases hug : t0 + 1800000 < now
  · rw [if_pos (by simp only [jsNowGt, decide_eq_true_eq]; exact_mod_cast hug),
      if_pos hug]
  · rw [if_neg (by
      simp only [jsNowGt, decide_eq_true_eq]
      intro hq
      exact hug (by exact_mod_cast hq)), if_neg hug]

/-! ## Rate limiter step lemmas -/

theorem rateLimitCheck_reset {s : RateState} {now : Int}
    (h : 60000 < now - s.lastAttempt) :
    rateLimitCheck s now = (true, RateState.mk 1 now) := by
  simp [rateLimitCheck, if_pos (show now - s.lastAttempt > 60000 from h)]

theorem rateLimitCheck_allow {s : RateState} {now : Int}
    (hres : now - s.lastAttempt ≤ 60000) (hatt : s.attempts < 5) :
    rateLimitCheck s now = (true, RateState.mk (s.attempts + 1) now) := by
  simp [rateLimitCheck, if_neg (show ¬(now - s.lastAttempt > 60000) by omega),
    if_neg (show ¬(s.attempts ≥ 5) by omega)]

theorem rateLimitCheck_deny {s : RateState} {now : Int}
    (hres : now - s.lastAttempt ≤ 60000) (hatt : 5 ≤ s.attempts) :
    rateLimitCheck s now = (false, s) := by
  simp [rateLimitCheck, if_neg (show ¬(now - s.lastAttempt > 60000) by omega),
    if_pos (show s.attempts ≥ 5 from hatt)]

theorem rateLimitCheck_fresh (t : Int) :
    rateLimitCheck (RateState.mk 0 0) t = (true, RateState.mk 1 t) := by
  by_cases h : 60000 < t - (RateState.mk 0 0).lastAttempt
  · exact rateLimitCheck_reset h
  · exact rateLimitCheck_allow (by omega) (by norm_num)

/-! ## Claims about the rate limiter -/

/-- C3: starting from the fresh counter, five consecutive `check()` calls
within one 60-second window all return `true`; the sixth call in the same
window returns `false` and leaves the counter untouched (`attempts` stays 5,
`lastAttempt` stays at the fifth call's time); a further call more than 60
seconds later returns `true` and leaves `attempts = 1`. -/
theorem claim_c3_rate_limit_window (t1 t2 t3 t4 t5 t6 t7 : Int)
    (h12 : t1 ≤ t2) (h23 : t2 ≤ t3) (h34 : t3 ≤ t4) (h45 : t4 ≤ t5)
    (h56 : t5 ≤ t6) (hw : t6 ≤ t1 + 60000) (h7 : t6 + 60000 < t7) :
    rateLimitRun (RateState.mk 0 0) [t1, t2, t3, t4, t5, t6] =
      ([true, true, true, true, true, false], RateState.mk 5 t5) ∧
    rateLimitRun (RateState.mk 0 0) [t1, t2, t3, t4, t5, t6, t7] =
      ([true, true, true, true, true, false, true], RateState.mk 1 t7) := by
  have e1 := rateLimitCheck_fresh t1
  have e2 : rateLimitCheck (RateState.mk 1 t1) t2 = (true, RateState.mk 2 t2) :=
    rateLimitCheck_allow (by simp; omega) (by norm_num)
  have e3 : rateLimitCheck (RateState.mk 2 t2) t3 = (true, RateState.mk 3 t3) :=
    rateLimitCheck_allow (by simp; omega) (by norm_num)
  have e4 : rateLimitCheck (RateState.mk 3 t3) t4 = (true, RateState.mk 4 t4) :=
    rateLimitCheck_allow (by simp; omega) (by norm_num)
  have e5 : rateLimitCheck (RateState.mk 4 t4) t5 = (true, RateState.mk 5 t5) :=
    rateLimitCheck_allow (by simp; omega) (by norm_num)
  have e6 : rateLimitCheck (RateState.mk 5 t5) t6 = (false, RateState.mk 5 t5) :=
    rateLimitCheck_deny (by simp; omega) (by norm_num)
  have e7 : rateLimitCheck (RateState.mk 5 t5) t7 = (true, RateState.mk 1 t7) :=
    rateLimitCheck_reset (by simp; omega)
  constructor <;> simp [rateLimitRun, e1, e2, e3, e4, e5, e6, e7]

/-- C3 witness at the concrete times 0,1,2,3,4,5 and 70000. -/
theorem claim_c3_witness :
    ((0 : Int) ≤ 1 ∧ (1 : Int) ≤ 2 ∧ (2 : Int) ≤ 3 ∧ (3 : Int) ≤ 4 ∧
      (4 : Int) ≤ 5 ∧ (5 : Int) ≤ 0 + 60000 ∧ (5 : Int) + 60000 < 70000) ∧
    (rateLimitRun (RateState.mk 0 0) [0, 1, 2, 3, 4, 5] =
      ([true, true, true, true, true, false], RateState.mk 5 4) ∧
     rateLimitRun (RateState.mk 0 0) [0, 1, 2, 3, 4, 5, 70000] =
      ([true, true, true, true, true, false, true], RateState.mk 1 70000)) :=
  ⟨by norm_num,
   claim_c3_rate_limit_window 0 1 2 3 4 5 70000 (by norm_num) (by norm_num)
     (by norm_num) (by norm_num) (by norm_num) (by norm_num) (by norm_num)⟩

/-- C10: whenever `check()` returns `false`, the counter is completely
unchanged (`attempts` and `lastAttempt` keep their prior values), and any
call strictly more than 60 seconds after `lastAttempt` — the last allowed
attempt — returns `true`, so rejected calls never extend the lockout. -/
theorem claim_c10_reject_frame (s : RateState) (now : Int)
    (h : (rateLimitCheck s now).1 = false) :
    (rateLimitCheck s now).2 = s ∧
      ∀ t : Int, s.lastAttempt + 60000 < t → (rateLimitCheck s t).1 = true := by
  constructor
  · by_cases hr : 60000 < now - s.lastAttempt
    · rw [rateLimitCheck_reset hr] at h
      cases h
    · by_cases ha : 5 ≤ s.attempts
      · rw [rateLimitCheck_deny (by omega) ha]
      · rw [rateLimitCheck_allow (by omega) (by omega)] at h
        cases h
  · intro t ht
    rw [rateLimitCheck_reset (by omega)]

/-- C10 witness: a saturated counter rejects at time 10 without mutation and
allows again at time 70001. -/
theorem claim_c10_witness :
    (rateLimitCheck (RateState.mk 5 0) 10).1 = false ∧
    (rateLimitCheck (RateState.mk 5 0) 10).2 = RateState.mk 5 0 ∧
    (rateLimitCheck (RateState.mk 5 0) 70001).1 = true :=
  ⟨by decide,
   (claim_c10_reject_frame (RateState.mk 5 0) 10 (by decide)).1,
   (claim_c10_reject_frame (RateState.mk 5 0) 10 (by decide)).2 70001 (by decide)⟩

/-- The claimed `windowStart` invariant of C7, phrased as agreement of the
implementation's `attempts` counter with the spec's `windowStart`-reset
semantics on every call sequence. -/
def c7WindowStartClaim : Prop :=
  ∀ ts : List Int,
    ((rateLimitRun (RateState.mk 0 0) ts).2).attempts =
      ((rateSpecRun (RateSpecState.mk 0 0) ts).2).attempts

/-- C7 counterexample: on calls at 0, 50000 and 100000 the code's counter
reaches 3 (each gap is under 60 s, so the `lastAttempt`-based reset never
fires), while under the claimed `windowStart` semantics the third call lies
100000 ms > 60000 ms after the window start and must reset, leaving 1. -/
theorem claim_c7_counterexample : ¬c7WindowStartClaim := by
  intro h
  have h3 := h [0, 50000, 100000]
  revert h3
  decide

/-- C7 (amended): the reset is driven by `lastAttempt`, not `windowStart`:
whenever a call arrives more than 60 seconds after the last recorded
(allowed) attempt, `attempts` is reset to 0 and the call is allowed, leaving
`attempts = 1` and `lastAttempt = now`. -/
theorem claim_c7_reset_on_elapsed (s : RateState) (now : Int)
    (h : 60000 < now - s.lastAttempt) :
    rateLimitCheck s now = (true, RateState.mk 1 now) :=
  rateLimitCheck_reset h

/-- C7 witness: a saturated counter from time 0, probed at time 60001. -/
theorem claim_c7_witness :
    (60000 : Int) < 60001 - (RateState.mk 5 0).lastAttempt ∧
    rateLimitCheck (RateState.mk 5 0) 60001 = (true, RateState.mk 1 60001) :=
  ⟨by decide, claim_c7_reset_on_elapsed (RateState.mk 5 0) 60001 (by decide)⟩

/-! ## Claim about startup secret handling -/

/-- C9: when `CSRF_SECRET` is absent, startup throws under
`NODE_ENV=production` and otherwise proceeds with the ephemeral random secret
and a warning; moreover any successful production startup took its secret
verbatim from a non-empty `CSRF_SECRET` with no warning — production never
runs on a silently generated ephemeral secret. -/
theorem claim_c9_secret_startup (envNodeEnv : Option String) (randHex : String) :
    (envNodeEnv = some "production" →
      startupSecret none envNodeEnv randHex =
        .error "CSRF_SECRET is not set; using ephemeral secret (development only).") ∧
    (¬envNodeEnv = some "production" →
      startupSecret none envNodeEnv randHex = .ok (randHex, true)) ∧
    (∀ (envCsrf : Option String) (secret : String) (warned : Bool),
      startupSecret envCsrf (some "production") randHex = .ok (secret, warned) →
      envCsrf = some secret ∧ ¬secret = "" ∧ warned = false) := by
  refine ⟨?_, ?_, ?_⟩
  · intro h
    subst h
    rfl
  · intro h
    simp [startupSecret, h]
  · intro envCsrf secret warned hok
    unfold startupSecret at hok
    by_cases hc : envCsrf = none ∨ envCsrf = some ""
    · rw [if_pos hc, if_pos rfl] at hok
      exact Except.noConfusion hok
    · rw [if_neg hc] at hok
      push_neg at hc
      obtain ⟨hc1, hc2⟩ := hc
      cases envCsrf with
      | none => exact absurd rfl hc1
      | some s0 =>
          have hs0 : ¬s0 = "" := fun e => hc2 (by rw [e])
          simp [hs0] at hok
          obtain ⟨hsec, hwarn⟩ := hok
          subst hsec
          exact ⟨rfl, hs0, hwarn⟩

/-- C9 witness: with `CSRF_SECRET` unset, production startup throws and a
development startup warns and uses the ephemeral secret. -/
theorem claim_c9_witness :
    startupSecret none (some "production") "r0" =
      .error "CSRF_SECRET is not set; using ephemeral secret (development only)." ∧
    startupSecret none (some "development") "r0" = .ok ("r0", true) :=
  ⟨(claim_c9_secret_startup (some "production") "r0").1 rfl,
   (claim_c9_secret_startup (some "development") "r0").2.1 (by decide)⟩

/-! ## Claims about candidate-token selection and structural validation -/

/-- The selection semantics claimed by C5: the first PRESENT source wins,
even when the header is present as a falsy (empty) string. -/
def c5FirstPresentClaim : Prop :=
  ∀ header bodyToken bodyCsrf : Option JsValue,
    selectToken header bodyToken bodyCsrf =
      selectTokenFirstPresent header bodyToken bodyCsrf

/-- C5 counterexample: with the header present as `""` and `_token` present,
the code selects the body value (JavaScript `||` skips falsy operands), while
the claimed first-present rule would select the empty header. -/
theorem claim_c5_counterexample : ¬c5FirstPresentClaim := by
  intro h
  have hx := h (some (.str "")) (some (.str "T")) none
  revert hx
  decide

/-- C5 (amended): selection follows JavaScript `||`: the first TRUTHY source
wins. A truthy (non-empty string) header decides verification outright and
body fields are never consulted, but a present-yet-empty header falls
through to the body fields as if absent. -/
theorem claim_c5_amended (secret : String) (now : Int) (s : String)
    (bodyToken bodyCsrf : Option JsValue) (hs : ¬s = "") :
    (verifyCsrfToken secret now (some (.str s)) bodyToken bodyCsrf =
      verifyCsrfToken secret now (some (.str s)) none none) ∧
    verifyCsrfToken secret now (some (.str "")) bodyToken bodyCsrf =
      verifyCsrfToken secret now none bodyToken bodyCsrf := by
  constructor
  · rw [verifyCsrfToken_header secret now s hs,
      verifyCsrfToken_header secret now s hs]
  · simp [verifyCsrfToken, selectToken, jsOr, truthy]

/-- C5 witness: a non-empty header wins over a body token; an empty header
defers to the body field. -/
theorem claim_c5_witness :
    (¬"x" = "") ∧
    ((verifyCsrfToken "k" 0 (some (.str "x")) (some (.str "y")) none =
       verifyCsrfToken "k" 0 (some (.str "x")) none none) ∧
     verifyCsrfToken "k" 0 (some (.str "")) (some (.str "y")) none =
       verifyCsrfToken "k" 0 none (some (.str "y")) none) :=
  ⟨by decide, claim_c5_amended "k" 0 "x" (some (.str "y")) none (by decide)⟩

/-- C4 (amended): the verifier rejects every candidate that is absent, not a
string, or whose first three `:`-fields are not all non-empty (this covers
the empty string, strings with fewer than two colons and empty fields); but
fields beyond the third are ignored rather than rejected: a token with
trailing extra fields verifies exactly like its three-field prefix. -/
theorem claim_c4_structure (secret : String) (now : Int) :
    (∀ header bodyToken bodyCsrf : Option JsValue,
      (∀ s : String, selectToken header bodyToken bodyCsrf = some (.str s) →
        (splitChar ':' s.data).getD 0 [] = [] ∨
        (splitChar ':' s.data).getD 1 [] = [] ∨
        (splitChar ':' s.data).getD 2 [] = []) →
      verifyCsrfToken secret now header bodyToken bodyCsrf = reject403) ∧
    (∀ a b c r : List Char, ':' ∉ a → ':' ∉ b → ':' ∉ c →
      verifyTokenStr secret now
          (String.mk (a ++ ':' :: (b ++ ':' :: (c ++ ':' :: r)))) =
        verifyTokenStr secret now (String.mk (a ++ ':' :: (b ++ ':' :: c)))) := by
  constructor
  · intro header bodyToken bodyCsrf hbad
    unfold verifyCsrfToken
    cases hsel : selectToken header bodyToken bodyCsrf with
    | none => rfl
    | some v =>
        cases v with
        | str s =>
            have hb := hbad s hsel
            show (if s = "" then reject403 else verifyTokenStr secret now s) =
              reject403
            by_cases hs : s = ""
            · rw [if_pos hs]
            · rw [if_neg hs]
              simp only [verifyTokenStr]
              rw [if_pos hb]
        | num q => rfl
        | bool b => rfl
        | null => rfl
        | obj => rfl
        | arr => rfl
  · intro a b c r hca hcb hcc
    unfold verifyTokenStr
    rw [show (String.mk (a ++ ':' :: (b ++ ':' :: (c ++ ':' :: r)))).data =
        a ++ ':' :: (b ++ ':' :: (c ++ ':' :: r)) from rfl,
      show (String.mk (a ++ ':' :: (b ++ ':' :: c))).data =
        a ++ ':' :: (b ++ ':' :: c) from rfl,
      splitChar_append _ hca, splitChar_append _ hcb, splitChar_append _ hcc,
      splitChar_three hca hcb hcc]
    simp only [List.getD_cons_zero, List.getD_cons_succ]

/-- C4 witness: a non-string candidate is rejected, and a four-field token
verifies exactly like its three-field prefix. -/
theorem claim_c4_witness :
    verifyCsrfToken "k" 0 (some (.num 7)) none none = reject403 ∧
    verifyTokenStr "k" 0
        (String.mk (['a'] ++ ':' :: (['1'] ++ ':' :: (['b'] ++ ':' :: ['x'])))) =
      verifyTokenStr "k" 0 (String.mk (['a'] ++ ':' :: (['1'] ++ ':' :: ['b']))) :=
  ⟨(claim_c4_structure "k" 0).1 (some (.num 7)) none none
      (fun s hsel => by
        rw [show selectToken (some (JsValue.num 7)) none none =
            some (JsValue.num 7) from by decide] at hsel
        injection hsel with h2
        exact JsValue.noConfusion h2),
   (claim_c4_structure "k" 0).2 ['a'] ['1'] ['b'] ['x']
      (by decide) (by decide) (by decide)⟩

/-- C4 counterexample: a candidate with three colons (four `:`-fields) whose
first three fields form a validly signed token is ACCEPTED — the
destructuring of `split(':')` silently drops the fourth field, so "more or
fewer than exactly two colons" does not imply rejection. -/
theorem claim_c4_counterexample :
    ("aa:1:" ++ hmacSha256Hex "k" "aa:1" ++ ":x").data.count ':' = 3 ∧
    verifyCsrfToken "k" 0
      (some (.str ("aa:1:" ++ hmacSha256Hex "k" "aa:1" ++ ":x"))) none none =
      .next := by
  constructor
  · decide
  · decide

/-! ## Claims about expiry parsing and the throwing compare -/

/-- C6 (amended): the code checks only `Number.isNaN`: a well-formed token
whose signature is the correctly recomputed HMAC is rejected whenever its
expiry field parses to NaN; non-finite values pass the check — `"Infinity"`
parses to `Infinity`, which is not NaN and never exceeded by `Date.now()`,
so such a token is accepted (see the counterexample). -/
theorem claim_c6_nan_rejected (secret : String) (now : Int)
    (nonce expiryStr : String)
    (hnn : ¬nonce.data = []) (hne : ¬expiryStr.data = [])
    (hcn : ':' ∉ nonce.data) (hce : ':' ∉ expiryStr.data)
    (hnan : jsIsNaN (jsToNumber expiryStr) = true) :
    verifyTokenStr secret now
      (String.mk (nonce.data ++ ':' :: (expiryStr.data ++ ':' ::
        (hmacSha256Hex secret (nonce ++ ":" ++ expiryStr)).data))) =
      reject403 := by
  have hnc : ¬(hmacSha256Hex secret (nonce ++ ":" ++ expiryStr)).data = [] := by
    intro e
    have hl := jsStrLen_hmacHex secret (nonce ++ ":" ++ expiryStr)
    rw [e] at hl
    simp [jsStrLen] at hl
  have hcc : ':' ∉ (hmacSha256Hex secret (nonce ++ ":" ++ expiryStr)).data := by
    rw [hmacSha256Hex_data]
    exact colon_not_mem_bytesToHexChars _
  rw [verifyTokenStr_parts hnn hne hnc hcn hce hcc, strMk_data nonce,
    strMk_data expiryStr]
  rw [if_neg (not_not_intro rfl), if_neg (not_not_intro rfl),
    if_neg (not_not_intro rfl), if_pos hnan]

/-- C6 witness: the expiry field `"xx"` parses to NaN, and the validly signed
token `aa:xx:HMAC(aa:xx)` is rejected. -/
theorem claim_c6_witness :
    jsIsNaN (jsToNumber "xx") = true ∧
    verifyTokenStr "k" 0
      (String.mk (("aa" : String).data ++ ':' :: (("xx" : String).data ++ ':' ::
        (hmacSha256Hex "k" ("aa" ++ ":" ++ "xx")).data))) = reject403 :=
  ⟨by decide,
   claim_c6_nan_rejected "k" 0 "aa" "xx" (by decide) (by decide) (by decide)
     (by decide) (by decide)⟩

/-- C6 counterexample: `Number("Infinity")` is `Infinity`, not NaN, and
`Date.now() > Infinity` is never true, so a validly signed token with expiry
field `"Infinity"` is ACCEPTED, where the claim demands rejection. -/
theorem claim_c6_counterexample :
    jsToNumber "Infinity" = .posInf ∧
    verifyCsrfToken "k" 0
      (some (.str ("aa:Infinity:" ++ hmacSha256Hex "k" "aa:Infinity"))) none none =
      .next := by
  constructor
  · decide
  · decide

/-- C2: the claim fails on the code — verification CAN throw. For a
three-field candidate whose signature segment has the right UTF-16 length
(64) but is not hex, `signature.length === expectedSignature.length` passes,
`Buffer.from(signature, "hex")` truncates to an empty buffer, and
`crypto.timingSafeEqual` throws a `RangeError` on the 0- vs 32-byte inputs,
surfacing as a 500 rather than the uniform 403. -/
theorem claim_c2_throws :
    verifyCsrfToken "k" 0
      (some (.str ("a:1:" ++ String.mk (List.replicate 64 'z')))) none none =
      .throws := by decide

/-! ## The token-validity characterization (C1) and the issuance format (C8) -/

/-- The validity characterization claimed by C1: acceptance iff the signature
field literally equals the hex-encoded HMAC, the expiry is numeric (not NaN)
and the current time does not exceed it. -/
def c1LiteralHexClaim : Prop :=
  ∀ (secret : String) (now : Int) (nonce expiryStr sig : String),
    ¬nonce.data = [] → ¬expiryStr.data = [] → ¬sig.data = [] →
    ':' ∉ nonce.data → ':' ∉ expiryStr.data → ':' ∉ sig.data →
    (verifyCsrfToken secret now
        (some (.str (nonce ++ ":" ++ expiryStr ++ ":" ++ sig))) none none =
        .next ↔
      (sig = hmacSha256Hex secret (nonce ++ ":" ++ expiryStr) ∧
       jsIsNaN (jsToNumber expiryStr) = false ∧
       jsNowGt now (jsToNumber expiryStr) = false))

/-- C1 counterexample: hex decoding is case-insensitive, so the UPPERCASED
signature is accepted although it does not equal the (lowercase) hex-encoded
HMAC string — the claimed iff fails in the accept-implies-equal direction. -/
theorem claim_c1_counterexample : ¬c1LiteralHexClaim := by
  intro h
  have hx := h "k" 0 "aa" "1"
    (String.mk ((hmacSha256Hex "k" "aa:1").data.map Char.toUpper))
    (by decide) (by decide) (by decide) (by decide) (by decide) (by decide)
  have hacc : verifyCsrfToken "k" 0
      (some (.str ("aa" ++ ":" ++ "1" ++ ":" ++
        String.mk ((hmacSha256Hex "k" "aa:1").data.map Char.toUpper)))) none
      none = .next := by decide
  have hlit := (hx.mp hacc).1
  revert hlit
  decide

/-- C1 (amended): for every three-field candidate `nonce:expiry:sig` (fields
non-empty and colon-free), the verifier accepts iff the signature segment has
UTF-16 length 64 and hex-decodes (case-insensitively) to exactly the
HMAC-SHA256 digest of `nonce:expiry` under the process secret, the expiry
field is not NaN, and `Date.now()` does not exceed it; and every token
produced by `issue()` at time `t0` is accepted up to `t0 + 30` minutes and
rejected with the generic 403 strictly after. -/
theorem claim_c1_accept_characterization (secret : String) (now t0 : Int)
    (nonce expiryStr sig : String) (rand : List Nat)
    (hnn : ¬nonce.data = []) (hne : ¬expiryStr.data = []) (hns : ¬sig.data = [])
    (hcn : ':' ∉ nonce.data) (hce : ':' ∉ expiryStr.data) (hcs : ':' ∉ sig.data)
    (ht0 : 0 ≤ t0) (hrand : rand.length = 16) :
    (verifyCsrfToken secret now
        (some (.str (nonce ++ ":" ++ expiryStr ++ ":" ++ sig))) none none =
        .next ↔
      (jsStrLen sig.data = 64 ∧
       bufferFromHex sig.data =
         hmacSha256 (strToBytes secret) (strToBytes (nonce ++ ":" ++ expiryStr)) ∧
       jsIsNaN (jsToNumber expiryStr) = false ∧
       jsNowGt now (jsToNumber expiryStr) = false)) ∧
    (now ≤ t0 + 1800000 →
      verifyCsrfToken secret now
        (some (.str (issueCsrfToken secret t0 rand))) none none = .next) ∧
    (t0 + 1800000 < now →
      verifyCsrfToken secret now
        (some (.str (issueCsrfToken secret t0 rand))) none none = reject403) := by
  refine ⟨?_, ?_, ?_⟩
  · have hdata : (nonce ++ ":" ++ expiryStr ++ ":" ++ sig).data =
        nonce.data ++ ':' :: (expiryStr.data ++ ':' :: sig.data) := by
      simp [String.data_append]
    have hsne : ¬(nonce ++ ":" ++ expiryStr ++ ":" ++ sig) = "" := by
      intro e
      have hd := congrArg String.data e
      rw [hdata] at hd
      simp at hd
    have hres : nonce ++ ":" ++ expiryStr ++ ":" ++ sig =
        String.mk (nonce.data ++ ':' :: (expiryStr.data ++ ':' :: sig.data)) := by
      conv_lhs => rw [← strMk_data (nonce ++ ":" ++ expiryStr ++ ":" ++ sig)]
      rw [hdata]
    rw [verifyCsrfToken_header secret now _ hsne, hres,
      verifyTokenStr_accept_iff hnn hne hns hcn hce hcs, strMk_data nonce,
      strMk_data expiryStr]
  · intro hle
    rw [verify_issue_eval secret now t0 rand ht0 hrand, if_neg (by omega)]
  · intro hgt
    rw [verify_issue_eval secret now t0 rand ht0 hrand, if_pos hgt]

/-- C1 witness: hypotheses at `nonce = "aa"`, `expiry = "1"`, the valid
lowercase signature, and 16 zero random bytes; the freshly issued token is
accepted at issuance time. -/
theorem claim_c1_witness :
    (¬("aa" : String).data = [] ∧ ¬("1" : String).data = [] ∧
     ¬(hmacSha256Hex "k" "aa:1").data = [] ∧ ':' ∉ ("aa" : String).data ∧
     ':' ∉ ("1" : String).data ∧ ':' ∉ (hmacSha256Hex "k" "aa:1").data ∧
     (0 : Int) ≤ 0 ∧ (List.replicate 16 (0 : Nat)).length = 16 ∧
     (0 : Int) ≤ 0 + 1800000) ∧
    verifyCsrfToken "k" 0
      (some (.str (issueCsrfToken "k" 0 (List.replicate 16 0)))) none none =
      .next :=
  ⟨by decide,
   (claim_c1_accept_characterization "k" 0 0 "aa" "1" (hmacSha256Hex "k" "aa:1")
      (List.replicate 16 0) (by decide) (by decide) (by decide) (by decide)
      (by decide) (by decide) (by decide) (by decide)).2.1 (by norm_num)⟩

/-- C8: `issue()` returns `nonce:expiry:signature` where the nonce is the
lowercase hex of the 16 random bytes (32 hex characters, 128 bits), the
expiry is exactly `Date.now() + 30` minutes in epoch milliseconds (and
re-parses to that number), and the signature is the 64-character lowercase
hex HMAC-SHA256 of `nonce:expiry` under the process secret. -/
theorem claim_c8_issue_format (secret : String) (t0 : Int) (rand : List Nat)
    (ht0 : 0 ≤ t0) (hrand : rand.length = 16)
    (_hbytes : ∀ bb ∈ rand, bb < 256) :
    issueCsrfToken secret t0 rand =
      bytesToHex rand ++ ":" ++ jsIntToString (t0 + 1800000) ++ ":" ++
        hmacSha256Hex secret
          (bytesToHex rand ++ ":" ++ jsIntToString (t0 + 1800000)) ∧
    (bytesToHex rand).data.length = 32 ∧
    (∀ ch ∈ (bytesToHex rand).data, isLowerHexCh ch = true) ∧
    jsToNumber (jsIntToString (t0 + 1800000)) = .fin ((t0 : ℚ) + 1800000) ∧
    (hmacSha256Hex secret
        (bytesToHex rand ++ ":" ++ jsIntToString (t0 + 1800000))).data.length =
      64 ∧
    ∀ ch ∈ (hmacSha256Hex secret
        (bytesToHex rand ++ ":" ++ jsIntToString (t0 + 1800000))).data,
      isLowerHexCh ch = true := by
  refine ⟨rfl, ?_, ?_, ?_, ?_, ?_⟩
  · show (bytesToHexChars rand).length = 32
    rw [bytesToHexChars_length, hrand]
  · intro ch hch
    rw [show (bytesToHex rand).data = bytesToHexChars rand from rfl] at hch
    obtain ⟨d, rfl⟩ := mem_bytesToHexChars hch
    exact isLowerHexCh_hexDigitChar d
  · rw [jsToNumber_jsIntToString (by omega)]
    congr 1
    push_cast
    ring
  · rw [hmacSha256Hex_data, bytesToHexChars_length, hmacSha256_length]
  · intro ch hch
    rw [hmacSha256Hex_data] at hch
    obtain ⟨d, rfl⟩ := mem_bytesToHexChars hch
    exact isLowerHexCh_hexDigitChar d

/-- C8 witness: hypotheses at time 0 with 16 zero bytes, and the nonce and
expiry facts of the issued token. -/
theorem claim_c8_witness :
    ((0 : Int) ≤ 0 ∧ (List.replicate 16 (0 : Nat)).length = 16 ∧
      ∀ bb ∈ List.replicate 16 (0 : Nat), bb < 256) ∧
    (bytesToHex (List.replicate 16 0)).data.length = 32 ∧
    jsToNumber (jsIntToString ((0 : Int) + 1800000)) =
      .fin (((0 : Int) : ℚ) + 1800000) :=
  ⟨by decide,
   (claim_c8_issue_format "k" 0 (List.replicate 16 0) (by decide) (by decide)
      (by decide)).2.1,
   (claim_c8_issue_format "k" 0 (List.replicate 16 0) (by decide) (by decide)
      (by decide)).2.2.2.1⟩
